import Mathlib

/-!
Verification development for the Athena SQL detection-rule backend:
the condition-to-predicate translator (identifier resolution, literal
escaping with wildcard semantics, modifier resolution, predicate
assembly) and the per-run template-substitution pipeline helper
(`SetStateFromBackendOptionsTransformation` and its dash-to-underscore
variant) together with the security-lake table-name pipeline.

Strings are embedded as `List Char` (abbreviated `Str`), run-scoped
state and option/default mappings as association lists `SMap`.
-/

namespace Athena

/-- Character lists standing for the Python strings manipulated by the code. -/
abbrev Str := List Char

/-- Boolean prefix test on character lists. -/
def isPre : Str → Str → Bool
  | [], _ => true
  | _ :: _, [] => false
  | a :: as, b :: bs => a = b && isPre as bs

/-- Boolean substring test on character lists. -/
def hasSub (pat : Str) : Str → Bool
  | [] => isPre pat []
  | c :: t => isPre pat (c :: t) || hasSub pat t

/-- Boolean suffix test on character lists. -/
def isSuf (pat s : Str) : Bool := isPre pat.reverse s.reverse

theorem isPre_refl (p : Str) : isPre p p = true := by
  induction p with
  | nil => rfl
  | cons a as ih => simp [isPre, ih]

theorem isPre_append_right (p b : Str) (a : Str) (h : isPre p b = true) :
    isPre p (b ++ a) = true := by
  induction p generalizing b with
  | nil => rfl
  | cons x xs ih =>
    cases b with
    | nil => simp [isPre] at h
    | cons y ys =>
      simp [isPre] at h
      simp [isPre, h.1, ih ys h.2]

theorem isPre_self_append (p a : Str) : isPre p (p ++ a) = true :=
  isPre_append_right p p a (isPre_refl p)

theorem hasSub_of_isPre (pat s : Str) (h : isPre pat s = true) : hasSub pat s = true := by
  cases s with
  | nil => simpa [hasSub] using h
  | cons c t => simp [hasSub, h]

theorem hasSub_append_left (pat a b : Str) (h : hasSub pat b = true) :
    hasSub pat (a ++ b) = true := by
  induction a with
  | nil => simpa using h
  | cons c t ih => simp [hasSub, ih]

theorem hasSub_append_right (pat a b : Str) (h : hasSub pat a = true) :
    hasSub pat (a ++ b) = true := by
  induction a with
  | nil =>
    cases pat with
    | nil => exact hasSub_of_isPre _ _ rfl
    | cons x xs => simp [hasSub, isPre] at h
  | cons c t ih =>
    simp [hasSub] at h
    rcases h with h | h
    · exact hasSub_of_isPre _ _ (by simpa using isPre_append_right _ _ b h)
    · simp [hasSub, ih h]

theorem hasSub_self_append (pat b : Str) : hasSub pat (pat ++ b) = true :=
  hasSub_of_isPre _ _ (isPre_self_append pat b)

theorem hasSub_mid (pat a b : Str) : hasSub pat (a ++ pat ++ b) = true := by
  rw [List.append_assoc]
  exact hasSub_append_left _ _ _ (hasSub_self_append pat b)

theorem isSuf_append_left (pat a b : Str) (h : isSuf pat b = true) :
    isSuf pat (a ++ b) = true := by
  unfold isSuf at *
  rw [List.reverse_append]
  exact isPre_append_right _ _ _ h

/-- Modelled from the spec: ASCII lower-casing as performed by Python
`str.lower` on the ASCII letters occurring in the repository's rules and
tests (non-ASCII case mapping is outside the modelled fragment). -/
def pyLower (c : Char) : Char :=
  if c = 'A' then 'a' else if c = 'B' then 'b' else if c = 'C' then 'c'
  else if c = 'D' then 'd' else if c = 'E' then 'e' else if c = 'F' then 'f'
  else if c = 'G' then 'g' else if c = 'H' then 'h' else if c = 'I' then 'i'
  else if c = 'J' then 'j' else if c = 'K' then 'k' else if c = 'L' then 'l'
  else if c = 'M' then 'm' else if c = 'N' then 'n' else if c = 'O' then 'o'
  else if c = 'P' then 'p' else if c = 'Q' then 'q' else if c = 'R' then 'r'
  else if c = 'S' then 's' else if c = 'T' then 't' else if c = 'U' then 'u'
  else if c = 'V' then 'v' else if c = 'W' then 'w' else if c = 'X' then 'x'
  else if c = 'Y' then 'y' else if c = 'Z' then 'z' else c

/-- The ASCII uppercase letters, used to state case-folding properties. -/
def upperAscii (c : Char) : Bool :=
  c = 'A' || (c = 'B' || (c = 'C' || (c = 'D' || (c = 'E' || (c = 'F' ||
  (c = 'G' || (c = 'H' || (c = 'I' || (c = 'J' || (c = 'K' || (c = 'L' ||
  (c = 'M' || (c = 'N' || (c = 'O' || (c = 'P' || (c = 'Q' || (c = 'R' ||
  (c = 'S' || (c = 'T' || (c = 'U' || (c = 'V' || (c = 'W' || (c = 'X' ||
  (c = 'Y' || c = 'Z'))))))))))))))))))))))))

/-- The ASCII lowercase letters. -/
def lowerList : Str := "abcdefghijklmnopqrstuvwxyz".data

theorem pyLower_of_upper (x : Char) (h : upperAscii x = true) :
    pyLower x ∈ lowerList := by
  simp only [upperAscii, Bool.or_eq_true, decide_eq_true_eq] at h
  rcases h with rfl|rfl|rfl|rfl|rfl|rfl|rfl|rfl|rfl|rfl|rfl|rfl|rfl|rfl|rfl|rfl|rfl|rfl|rfl|rfl|rfl|rfl|rfl|rfl|rfl|rfl <;> decide

theorem pyLower_of_not_upper (x : Char) (h : upperAscii x = false) :
    pyLower x = x := by
  unfold pyLower
  simp only [upperAscii, Bool.or_eq_false_iff, decide_eq_false_iff_not] at h
  obtain ⟨h1, h2, h3, h4, h5, h6, h7, h8, h9, h10, h11, h12, h13, h14, h15,
    h16, h17, h18, h19, h20, h21, h22, h23, h24, h25, h26⟩ := h
  simp [h1, h2, h3, h4, h5, h6, h7, h8, h9, h10, h11, h12, h13, h14, h15,
    h16, h17, h18, h19, h20, h21, h22, h23, h24, h25, h26]

theorem upperAscii_of_lower (y : Char) (hm : y ∈ lowerList) :
    upperAscii y = false := by
  have h : ∀ z, z ∈ lowerList → upperAscii z = false := by decide
  exact h y hm

theorem upperAscii_pyLower (x : Char) : upperAscii (pyLower x) = false := by
  cases h : upperAscii x with
  | false => rw [pyLower_of_not_upper x h]; exact h
  | true => exact upperAscii_of_lower _ (pyLower_of_upper x h)

/-- `pyLower` fixes every character that is not an ASCII uppercase letter
and never produces one; in particular it fixes and reflects all the SQL
metacharacters and wildcard characters. -/
theorem pyLower_eq_symbol (s : Char) (hs1 : upperAscii s = false)
    (hs2 : s ∉ lowerList) (x : Char) : (pyLower x = s) ↔ (x = s) := by
  constructor
  · intro h
    cases hx : upperAscii x with
    | false => rw [pyLower_of_not_upper x hx] at h; exact h
    | true =>
      have hm := pyLower_of_upper x hx
      rw [h] at hm
      exact absurd hm hs2
  · intro h
    rw [h]
    exact pyLower_of_not_upper s hs1

/-! ### The condition-to-predicate translator

The backend module `sigma/backends/athena` itself is not part of the
excerpt; the translator below is modelled from the spec (sections 4.1-4.4)
and anchored on the repository's backend tests in
`tests/test_backend_athena_mixed_modifiers.py`, which fix the exact SQL
text.  Where the spec's prose and the tests disagree (wildcard `*` under
`contains`), the tests' asserted output is followed. -/

/-- Modelled from the spec: the value modifiers handled by the missing
backend module (plain equality is the absence of a shape modifier). -/
inductive AMod where
  | contains
  | startswith
  | endswith
  | cased
  | fieldref
  | re
deriving DecidableEq, Repr

/-- Modelled from the spec: the resolved comparison shape. -/
inductive Shape where
  | eqS
  | containsS
  | startsS
  | endsS
  | regexS
  | fieldrefS
deriving DecidableEq, Repr

/-- Modelled from the spec: the error classes the missing backend module
can raise during modifier resolution (`NotImplementedError` is the class
the repository's test `test_athena_cased_fieldref` expects;
`NotSupportedError` is listed because the spec names it). -/
inductive BErr where
  | sigmaValueError (msg : String)
  | notImplementedError (msg : String)
  | notSupportedError (msg : String)
deriving DecidableEq, Repr

/-- Is the modifier one of the three string-match shape modifiers? -/
def isShapeMod (m : AMod) : Bool :=
  m = AMod.contains || m = AMod.startswith || m = AMod.endswith

/-- Modelled from the spec: modifier resolution (spec section 4.2),
producing the comparison shape and the case-sensitivity flag, in the
precedence `re`, then `fieldref`, then the string-match shapes.  The
error class and message of the `cased`+`fieldref` failure are those
asserted by the repository test `test_athena_cased_fieldref`; the regex
exclusivity message is the one asserted by
`test_athena_cased_regex_same_as_default`. -/
def resolveModifiers (mods : List AMod) : Except BErr (Shape × Bool) :=
  if AMod.re ∈ mods then
    if mods.any (fun m => m ≠ AMod.re) then
      .error (.sigmaValueError
        "Regular expression modifier only applicable to unmodified values")
    else .ok (.regexS, false)
  else if AMod.fieldref ∈ mods then
    if AMod.cased ∈ mods then
      .error (.notImplementedError
        "cased is not support with fieldref for this backend at present")
    else .ok (.fieldrefS, false)
  else
    let cs := AMod.cased ∈ mods
    match mods.filter isShapeMod with
    | [] => .ok (.eqS, cs)
    | [AMod.contains] => .ok (.containsS, cs)
    | [AMod.startswith] => .ok (.startsS, cs)
    | [AMod.endswith] => .ok (.endsS, cs)
    | _ => .error (.sigmaValueError "multiple string match modifiers")

/-- Modelled from the spec: LIKE metacharacter escaping (spec section
4.3) - each occurrence of `%`, `_` or `\` in the literal is prefixed
with one `\`. -/
def escapeLike : Str → Str
  | [] => []
  | c :: rest =>
    if c = '%' ∨ c = '_' ∨ c = '\\' then '\\' :: c :: escapeLike rest
    else c :: escapeLike rest

/-- Modelled from the spec and the repository test
`test_athena_contains_list_with_literal_star_and_question`: generic
wildcard translation under the pattern shapes - `*` becomes SQL `%` and
`?` becomes SQL `_` (the test's asserted output `'%val%a%'` shows `*` is
translated under `contains` as well); other shapes translate nothing. -/
def transWild (shape : Shape) (c : Char) : Char :=
  match shape with
  | .containsS | .startsS | .endsS =>
      if c = '*' then '%' else if c = '?' then '_' else c
  | _ => c

/-- Modelled from the spec: lower-case the literal unless the comparison
is case-sensitive. -/
def lowerIf (cs : Bool) (s : Str) : Str :=
  if cs then s else s.map pyLower

/-- Modelled from the spec: bracketing of the escaped literal by shape
(spec section 4.3). -/
def bracket (shape : Shape) (s : Str) : Str :=
  match shape with
  | .containsS => '%' :: s ++ ['%']
  | .startsS => s ++ ['%']
  | .endsS => '%' :: s
  | _ => s

/-- Modelled from the spec: the full LIKE pattern body for a literal -
escape the metacharacters, translate the generic wildcards, fold case,
then bracket (spec section 4.3). -/
def mkLikeBody (shape : Shape) (cs : Bool) (lit : Str) : Str :=
  bracket shape (lowerIf cs ((escapeLike lit).map (transWild shape)))

/-- Modelled from the spec: predicate assembly (spec section 4.4).  For
`fieldref` the second argument is the resolved identifier of the other
field; for the other shapes it is the raw literal. -/
def mkPredicate (shape : Shape) (cs : Bool) (id : Str) (val : Str) : Str :=
  match shape with
  | .eqS =>
      if cs then id ++ (" = '".data) ++ escapeLike val ++ ("'".data)
      else ("LOWER(".data) ++ id ++ (") = LOWER('".data) ++
        (escapeLike val).map pyLower ++ ("')".data)
  | .containsS | .startsS | .endsS =>
      if cs then id ++ (" LIKE '".data) ++ mkLikeBody shape cs val ++
        ("' ESCAPE '\\'".data)
      else ("LOWER(".data) ++ id ++ (") LIKE '".data) ++
        mkLikeBody shape cs val ++ ("' ESCAPE '\\'".data)
  | .fieldrefS =>
      ("LOWER(".data) ++ id ++ (") = LOWER(".data) ++ val ++ (")".data)
  | .regexS =>
      ("regexp_like(".data) ++ id ++ (", '".data) ++ val ++ ("')".data)

example : mkPredicate .containsS true "fieldA".data "SubString".data =
    "fieldA LIKE '%SubString%' ESCAPE '\\'".data := by decide
example : mkPredicate .containsS false "fieldA".data "val*a".data =
    "LOWER(fieldA) LIKE '%val%a%' ESCAPE '\\'".data := by decide
example : mkPredicate .containsS false "fieldA".data "val?b".data =
    "LOWER(fieldA) LIKE '%val_b%' ESCAPE '\\'".data := by decide
example : mkPredicate .containsS false "fieldA".data "val_c".data =
    "LOWER(fieldA) LIKE '%val\\_c%' ESCAPE '\\'".data := by decide
example : mkPredicate .startsS true "fieldA".data "Prefix".data =
    "fieldA LIKE 'Prefix%' ESCAPE '\\'".data := by decide
example : mkPredicate .endsS true "fieldA".data "Suffix".data =
    "fieldA LIKE '%Suffix' ESCAPE '\\'".data := by decide
example : mkPredicate .fieldrefS false "fieldA".data "fieldB".data =
    "LOWER(fieldA) = LOWER(fieldB)".data := by decide

/-! ### The identifier resolver (spec section 4.1) -/

/-- Prepend a character to the first segment of a split result. -/
def consHead (c : Char) : List Str → List Str
  | [] => [[c]]
  | s :: ss => (c :: s) :: ss

/-- Modelled from the spec: split a field name on unescaped dots; a
backslash-escaped dot (`\.`) is a literal dot inside the current
segment, not a separator. -/
def splitDots : Str → List Str
  | [] => [[]]
  | '.' :: rest => [] :: splitDots rest
  | '\\' :: '.' :: rest => consHead '.' (splitDots rest)
  | c :: rest => consHead c (splitDots rest)

/-- Characters legal in a bare (unquoted) SQL identifier segment. -/
def isBareChar (c : Char) : Bool := c.isAlpha || c.isDigit || c = '_'

/-- Modelled from the spec: wrap a segment in double quotes when it
contains characters illegal in a bare identifier. -/
def quoteIdent (s : Str) : Str :=
  if s.all isBareChar then s else '"' :: s ++ ['"']

/-- Join segments back with literal dots. -/
def joinDots : List Str → Str
  | [] => []
  | [s] => s
  | s :: rest => s ++ '.' :: joinDots rest

/-- Modelled from the spec: the identifier resolver.  An unmapped field
(first dot segment listed in `elementAtFields`, the backend's
`element_at_fields` configuration) becomes an `element_at` container
accessor whose path is the remaining segments re-joined with dots; any
other field becomes a dotted identifier whose segments are individually
quoted when needed. -/
def resolveField (elementAtFields : List String) (name : String) : String :=
  match splitDots name.data with
  | [] => ""
  | first :: rest =>
    if elementAtFields.contains ⟨first⟩ && !rest.isEmpty then
      ⟨"element_at(".data ++ first ++ ", '".data ++ joinDots rest ++ "')".data⟩
    else
      ⟨joinDots ((first :: rest).map quoteIdent)⟩

example : resolveField ["unmapped"] "unmapped.serviceEventDetails.account_id" =
    "element_at(unmapped, 'serviceEventDetails.account_id')" := by decide
example : resolveField ["unmapped"] "actor.user\\.uid" =
    "actor.\"user.uid\"" := by decide
example : resolveField ["unmapped"] "field name" = "\"field name\"" := by decide
example : resolveField ["unmapped"] "fieldA" = "fieldA" := by decide

/-! ### The per-run template-substitution helper

Embedding of `sigma/pipelines/athena/athena.py`: Python dicts are
association lists in insertion order, `{**defaults, **vars}` is a fold of
in-place-or-append updates, and `str.format_map` is a scanner over the
template restricted to the plain `{name}` placeholder fragment (with
`{{`/`}}` escapes) the pipeline uses - no conversion or format-spec
syntax. -/

/-- A Python `dict[str, str]` in insertion order. -/
abbrev SMap := List (String × String)

/-- Dictionary lookup. -/
def lookupS : SMap → String → Option String
  | [], _ => none
  | (k', v') :: rest, k => if k' = k then some v' else lookupS rest k

/-- Dictionary assignment `m[k] = v`: update in place when the key
exists, append otherwise (Python dict insertion-order semantics). -/
def setKey : SMap → String → String → SMap
  | [], k, v => [(k, v)]
  | (k', v') :: rest, k, v =>
    if k' = k then (k, v) :: rest else (k', v') :: setKey rest k v

/-- The merge `{**d, **v}`: start from the defaults and assign every
options entry over them, options overriding defaults on key collision. -/
def pyMerge (d v : SMap) : SMap :=
  v.foldl (fun acc p => setKey acc p.1 p.2) d

/-- The keys of a dict in order (`list(values.keys())`). -/
def keysOf (m : SMap) : List String := m.map Prod.fst

/-- A template token: a literal character or a `{name}` placeholder. -/
inductive Tok where
  | lit (c : Char)
  | ph (k : String)
deriving DecidableEq, Repr

/-- Errors of `str.format_map` on the modelled fragment: a placeholder
key absent from the mapping (Python `KeyError`), or malformed braces
(Python `ValueError`). -/
inductive FmtErr where
  | missingKey (k : String)
  | valueError
deriving DecidableEq, Repr

/-- Scanner for the template: outside a placeholder when the first
argument is `none`, inside one (with the reversed key accumulator) when
it is `some`.  `{{` and `}}` are literal braces. -/
def scanT : Option Str → Str → Except FmtErr (List Tok)
  | none, [] => .ok []
  | none, c :: rest =>
    if c = '\x7b' then
      match rest with
      | [] => .error .valueError
      | d :: rest2 =>
        if d = '\x7b' then (fun ts => .lit '\x7b' :: ts) <$> scanT none rest2
        else if d = '\x7d' then
          (fun ts => .ph "" :: ts) <$> scanT none rest2
        else scanT (some [d]) rest2
    else if c = '\x7d' then
      match rest with
      | [] => .error .valueError
      | d :: rest2 =>
        if d = '\x7d' then (fun ts => .lit '\x7d' :: ts) <$> scanT none rest2
        else .error .valueError
    else (fun ts => .lit c :: ts) <$> scanT none rest
  | some _, [] => .error .valueError
  | some acc, c :: rest =>
    if c = '\x7d' then (fun ts => .ph ⟨acc.reverse⟩ :: ts) <$> scanT none rest
    else if c = '\x7b' then .error .valueError
    else scanT (some (c :: acc)) rest

/-- Substitute a token stream using a mapping; the left-most placeholder
whose key is missing raises `KeyError` with that key. -/
def render (m : SMap) : List Tok → Except FmtErr Str
  | [] => .ok []
  | .lit c :: rest => (fun s => c :: s) <$> render m rest
  | .ph k :: rest =>
    match lookupS m k with
    | none => .error (.missingKey k)
    | some v => (fun s => v.data ++ s) <$> render m rest

/-- `template.format_map(values)` on the modelled fragment. -/
def formatMap (t : String) (m : SMap) : Except FmtErr String :=
  match scanT none t.data with
  | .error e => .error e
  | .ok toks => (fun s => (⟨s⟩ : String)) <$> render m toks

/-- Python repr of a list of plain strings, as interpolated by the
f-string `f"Available keys: {list(values.keys())}."`. -/
def reprKeys : List String → Str
  | [] => []
  | [k] => '\'' :: k.data ++ ['\'']
  | k :: rest => '\'' :: k.data ++ '\'' :: ',' :: ' ' :: reprKeys rest

/-- Python repr of the available-keys list, brackets included. -/
def pyReprList (ks : List String) : Str := '[' :: reprKeys ks ++ [']']

/-- The re-raised `KeyError` message built in
`SetStateFromBackendOptionsTransformation.apply`. -/
def missingMsg (missing skey : String) (avail : List String) : String :=
  "Missing key '" ++ missing ++ "' in template substitution for '" ++
    skey ++ "'. Available keys: " ++ (⟨pyReprList avail⟩ : String) ++
    ". You likely need to set the key '" ++ missing ++
    "' via 'backend options'."

/-- Errors escaping the transformation's `apply`: the re-raised
`KeyError` with its formatted message, or a propagated `ValueError`
(malformed template) or state-lookup `KeyError`, which the `try` block
does not wrap. -/
inductive AErr where
  | keyError (msg : String)
  | valueError
  | stateKeyError
deriving DecidableEq, Repr

/-- The dataclass `SetStateFromBackendOptionsTransformation`. -/
structure SetStateTr where
  key : String
  template : String
  default_values : SMap
deriving DecidableEq, Repr

/-- `SetStateFromBackendOptionsTransformation.apply`: merge the defaults
with the backend options `vars`, substitute the template, and write the
result into the run-scoped state under `key`; a missing placeholder key
re-raises `KeyError` with a descriptive message and the state is left
unchanged (the assignment's right-hand side is evaluated first). -/
def applyT (tr : SetStateTr) (vars : SMap) (st : SMap) : SMap × Option AErr :=
  match formatMap tr.template (pyMerge tr.default_values vars) with
  | .ok v => (setKey st tr.key v, none)
  | .error (.missingKey k) =>
    (st, some (.keyError
      (missingMsg k tr.key (keysOf (pyMerge tr.default_values vars)))))
  | .error .valueError => (st, some .valueError)

/-- `'-'`-to-`'_'` normalisation, `value.replace("-", "_")`. -/
def dashRepl (s : String) : String :=
  ⟨s.data.map (fun c => if c = '-' then '_' else c)⟩

/-- `SetStateFromBackendOptionsTransformationDashToUnderscore.apply`:
run the parent `apply`, then replace every `-` with `_` in the value
just written (errors from the parent propagate unchanged). -/
def applyDash (tr : SetStateTr) (vars : SMap) (st : SMap) :
    SMap × Option AErr :=
  match applyT tr vars st with
  | (st', none) =>
    match lookupS st' tr.key with
    | some cur => (setKey st' tr.key (dashRepl cur), none)
    | none => (st', some .stateKeyError)
  | (st', some e) => (st', some e)

example : applyT ⟨"t", "x_{a}_y", [("a", "u")]⟩ [] [] =
    ([("t", "x_u_y")], none) := by decide
example : applyDash ⟨"t", "{a}-b", []⟩ [("a", "c-d")] [] =
    ([("t", "c_d_b")], none) := by decide
example : applyT ⟨"t", "{a}", []⟩ [] [("z", "w")] =
    ([("z", "w")], some (.keyError
      "Missing key 'a' in template substitution for 't'. Available keys: []. You likely need to set the key 'a' via 'backend options'.")) := by
  decide

/-! ### The security-lake table-name pipeline
(`athena_pipeline_security_lake_table_name`) -/

/-- The per-logsource service names and table-name templates of
`athena_pipeline_security_lake_table_name`. -/
def securityLakeSources : List (String × String) :=
  [("cloudtrail",
    "amazon_security_lake_table_{backend_aws_table_region}_cloud_trail_mgmt_{backend_aws_table_version}"),
   ("cloudtrail_s3",
    "amazon_security_lake_table_{backend_aws_table_region}_s3_data_{backend_aws_table_version}"),
   ("cloudtrail_lambda",
    "amazon_security_lake_table_{backend_aws_table_region}_lambda_execution_{backend_aws_table_version}"),
   ("route53",
    "amazon_security_lake_table_{backend_aws_table_region}_route53_{backend_aws_table_version}"),
   ("security_hub",
    "amazon_security_lake_table_{backend_aws_table_region}_sh_findings_{backend_aws_table_version}"),
   ("vpc_flow_logs",
    "amazon_security_lake_table_{backend_aws_table_region}_vpc_flow_{backend_aws_table_version}"),
   ("waf",
    "amazon_security_lake_table_{backend_aws_table_region}_waf_{backend_aws_table_version}"),
   ("eks_audit",
    "amazon_security_lake_table_{backend_aws_table_region}_eks_audit_{backend_aws_table_version}")]

/-- The transformations the pipeline's processing items carry: one
dash-to-underscore state transformation per logsource, each writing
`table_name` and defaulting only `backend_aws_table_version` to `2_0`. -/
def securityLakeItems : List SetStateTr :=
  securityLakeSources.map (fun p =>
    ⟨"table_name", p.2, [("backend_aws_table_version", "2_0")]⟩)

/-- The placeholder keys a template references, in order (`none` when
the template is malformed). -/
def phKeys (t : String) : Option (List String) :=
  match scanT none t.data with
  | .ok toks => some (toks.filterMap (fun tok =>
      match tok with
      | .ph k => some k
      | .lit _ => none))
  | .error _ => none

/-! ### Auxiliary analysers used only in statements -/

/-- A token of a SQL LIKE pattern body under `ESCAPE '\'`: either a
backslash-escaped literal character or a raw (unescaped) character. -/
inductive LTok where
  | esc (c : Char)
  | raw (c : Char)
deriving DecidableEq, Repr

/-- Parse a LIKE pattern body into tokens; `none` when a backslash
dangles at the end. -/
def parseLike : Str → Option (List LTok)
  | [] => some []
  | c :: rest =>
    if c = '\\' then
      match rest with
      | [] => none
      | d :: rest2 => (fun ts => LTok.esc d :: ts) <$> parseLike rest2
    else (fun ts => LTok.raw c :: ts) <$> parseLike rest

/-- Number of positions of `s` at which `pat` occurs as a substring. -/
def countSub (pat : Str) : Str → Nat
  | [] => 0
  | c :: t => (if isPre pat (c :: t) then 1 else 0) + countSub pat t

/-! ### Dictionary lemmas -/

theorem lookupS_setKey_self (m : SMap) (k v : String) :
    lookupS (setKey m k v) k = some v := by
  induction m with
  | nil => simp [setKey, lookupS]
  | cons p rest ih =>
    by_cases h : p.1 = k
    · simp [setKey, h, lookupS]
    · simp [setKey, h, lookupS, ih]

theorem lookupS_setKey_ne (m : SMap) (k k' v : String) (h : k' ≠ k) :
    lookupS (setKey m k' v) k = lookupS m k := by
  induction m with
  | nil => simp [setKey, lookupS, h]
  | cons p rest ih =>
    by_cases hp : p.1 = k'
    · simp [setKey, hp, lookupS, h]
    · simp [setKey, hp, lookupS, ih]

theorem setKey_setKey (m : SMap) (k a b : String) :
    setKey (setKey m k a) k b = setKey m k b := by
  induction m with
  | nil => simp [setKey]
  | cons p rest ih =>
    by_cases h : p.1 = k
    · simp [setKey, h]
    · simp [setKey, h, ih]

theorem lookupS_none_not_mem (m : SMap) (k : String)
    (h : lookupS m k = none) : k ∉ keysOf m := by
  induction m with
  | nil => simp [keysOf]
  | cons p rest ih =>
    by_cases hp : p.1 = k
    · simp [lookupS, hp] at h
    · simp [lookupS, hp] at h
      simp [keysOf] at ih ⊢
      exact ⟨fun he => hp he.symm, ih h⟩

theorem lookupS_foldl_not_mem (vs : List (String × String)) (d : SMap)
    (k : String) (h : k ∉ vs.map Prod.fst) :
    lookupS (vs.foldl (fun acc p => setKey acc p.1 p.2) d) k = lookupS d k := by
  induction vs generalizing d with
  | nil => rfl
  | cons p rest ih =>
    rw [List.map_cons, List.mem_cons, not_or] at h
    rw [List.foldl_cons, ih _ h.2,
      lookupS_setKey_ne _ _ _ _ (fun he => h.1 he.symm)]

/-- On a key present in the options (with the options' keys unique, as
for a Python dict), the merged mapping holds the options' value. -/
theorem lookupS_pyMerge_of_vars (d vs : SMap) (k v : String)
    (hu : (vs.map Prod.fst).Nodup) (h : lookupS vs k = some v) :
    lookupS (pyMerge d vs) k = some v := by
  induction vs generalizing d with
  | nil => simp [lookupS] at h
  | cons p rest ih =>
    rw [List.map_cons, List.nodup_cons] at hu
    by_cases hp : p.1 = k
    · simp [lookupS, hp] at h
      subst h
      unfold pyMerge
      rw [List.foldl_cons]
      have hk : k ∉ rest.map Prod.fst := by
        rw [← hp]; exact hu.1
      rw [lookupS_foldl_not_mem _ _ _ hk, hp, lookupS_setKey_self]
    · simp [lookupS, hp] at h
      exact ih _ hu.2 h

/-- On a key absent from the options, the merged mapping falls back to
the defaults. -/
theorem lookupS_pyMerge_of_not_vars (d vs : SMap) (k : String)
    (h : lookupS vs k = none) :
    lookupS (pyMerge d vs) k = lookupS d k :=
  lookupS_foldl_not_mem vs d k (lookupS_none_not_mem vs k h)

/-! ### Character-counting lemmas -/

theorem count_map_iff (f : Char → Char) (c : Char)
    (h : ∀ x, (f x = c) ↔ (x = c)) (s : Str) :
    (s.map f).count c = s.count c := by
  induction s with
  | nil => rfl
  | cons a t ih =>
    simp only [List.map_cons, List.count_cons, ih, beq_iff_eq, h a]

theorem count_map_two (f : Char → Char) (c a : Char) (hca : c ≠ a)
    (h : ∀ x, (f x = c) ↔ (x = c ∨ x = a)) (s : Str) :
    (s.map f).count c = s.count c + s.count a := by
  induction s with
  | nil => rfl
  | cons x t ih =>
    simp only [List.map_cons, List.count_cons, ih, beq_iff_eq, h x]
    rcases Classical.em (x = c) with h1 | h1
    · subst h1
      simp [hca]
      omega
    · rcases Classical.em (x = a) with h2 | h2
      · subst h2
        simp [h1, show ¬ (x = c) from h1]
        omega
      · simp [h1, h2]

theorem count_map_zero (f : Char → Char) (c : Char)
    (h : ∀ x, f x ≠ c) (s : Str) : (s.map f).count c = 0 := by
  induction s with
  | nil => rfl
  | cons x t ih =>
    simp only [List.map_cons, List.count_cons, ih, beq_iff_eq]
    simp [h x]

theorem count_escapeLike (c : Char) (hc : c ≠ '\\') (s : Str) :
    (escapeLike s).count c = s.count c := by
  induction s with
  | nil => rfl
  | cons a t ih =>
    unfold escapeLike
    by_cases ha : a = '%' ∨ a = '_' ∨ a = '\\'
    · rw [if_pos ha]
      simp only [List.count_cons, ih, beq_iff_eq]
      have : ¬ ('\\' = c) := fun he => hc he.symm
      simp [this]
    · rw [if_neg ha]
      simp only [List.count_cons, ih, beq_iff_eq]

/-! ### Scanner and substitution lemmas -/

theorem scanT_none_cons_plain (c : Char) (h1 : c ≠ '\x7b')
    (h2 : c ≠ '\x7d') (t : Str) :
    scanT none (c :: t) = (fun ts => Tok.lit c :: ts) <$> scanT none t := by
  cases t <;> simp [scanT, h1, h2]

theorem scanT_key_chunk (acc s t : Str)
    (hs : ∀ c ∈ s, c ≠ '\x7b' ∧ c ≠ '\x7d') :
    scanT (some acc) (s ++ '\x7d' :: t) =
      (fun ts => Tok.ph ⟨acc.reverse ++ s⟩ :: ts) <$> scanT none t := by
  induction s generalizing acc with
  | nil => simp [scanT]
  | cons c s' ih =>
    have hc := hs c (List.mem_cons_self c s')
    have hrest : ∀ x ∈ s', x ≠ '\x7b' ∧ x ≠ '\x7d' :=
      fun x hx => hs x (List.mem_cons_of_mem c hx)
    rw [List.cons_append]
    show scanT (some acc) (c :: (s' ++ '\x7d' :: t)) = _
    rw [show scanT (some acc) (c :: (s' ++ '\x7d' :: t)) =
      scanT (some (c :: acc)) (s' ++ '\x7d' :: t) by
        simp [scanT, hc.1, hc.2]]
    rw [ih (c :: acc) hrest]
    simp

theorem scanT_lit_chunk (s t : Str)
    (hs : ∀ c ∈ s, c ≠ '\x7b' ∧ c ≠ '\x7d') :
    scanT none (s ++ t) = (fun ts => s.map Tok.lit ++ ts) <$> scanT none t := by
  induction s with
  | nil => cases h : scanT none t <;> simp [h]
  | cons c s' ih =>
    have hc := hs c (List.mem_cons_self c s')
    have hrest : ∀ x ∈ s', x ≠ '\x7b' ∧ x ≠ '\x7d' :=
      fun x hx => hs x (List.mem_cons_of_mem c hx)
    rw [List.cons_append, scanT_none_cons_plain c hc.1 hc.2, ih hrest]
    cases h : scanT none t <;> simp [h]

theorem scanT_open_key (k t : Str)
    (hk : ∀ c ∈ k, c ≠ '\x7b' ∧ c ≠ '\x7d') :
    scanT none ('\x7b' :: (k ++ '\x7d' :: t)) =
      (fun ts => Tok.ph ⟨k⟩ :: ts) <$> scanT none t := by
  cases k with
  | nil => simp [scanT]
  | cons c k' =>
    have hc := hk c (List.mem_cons_self c k')
    have hrest : ∀ x ∈ k', x ≠ '\x7b' ∧ x ≠ '\x7d' :=
      fun x hx => hk x (List.mem_cons_of_mem c hx)
    show scanT none ('\x7b' :: (c :: k' ++ '\x7d' :: t)) = _
    rw [show scanT none ('\x7b' :: (c :: k' ++ '\x7d' :: t)) =
      scanT (some [c]) (k' ++ '\x7d' :: t) by
        simp [scanT, hc.1, hc.2]]
    rw [scanT_key_chunk [c] k' t hrest]
    simp

theorem render_lit_chunk (m : SMap) (s : Str) (toks : List Tok) :
    render m (s.map Tok.lit ++ toks) = (fun r => s ++ r) <$> render m toks := by
  induction s with
  | nil => cases h : render m toks <;> simp [h]
  | cons c s' ih =>
    rw [List.map_cons, List.cons_append]
    show render m (.lit c :: (s'.map Tok.lit ++ toks)) = _
    rw [show render m (.lit c :: (s'.map Tok.lit ++ toks)) =
      (fun s => c :: s) <$> render m (s'.map Tok.lit ++ toks) from rfl]
    rw [ih]
    cases h : render m toks <;> simp [h]

theorem render_ph_found (m : SMap) (k v : String) (toks : List Tok)
    (h : lookupS m k = some v) :
    render m (Tok.ph k :: toks) = (fun r => v.data ++ r) <$> render m toks := by
  simp [render, h]

theorem render_ph_missing (m : SMap) (k : String) (toks : List Tok)
    (h : lookupS m k = none) :
    render m (Tok.ph k :: toks) = .error (.missingKey k) := by
  simp [render, h]

/-- `format_map` on a template that is exactly one plain placeholder
returns the mapping's value for that key. -/
theorem formatMap_single (k : String) (m : SMap) (v : String)
    (hk : ∀ c ∈ k.data, c ≠ '\x7b' ∧ c ≠ '\x7d')
    (h : lookupS m k = some v) :
    formatMap ⟨'\x7b' :: k.data ++ ['\x7d']⟩ m = .ok v := by
  unfold formatMap
  rw [show (String.mk ('\x7b' :: k.data ++ ['\x7d'])).data =
    '\x7b' :: (k.data ++ '\x7d' :: []) from rfl]
  rw [scanT_open_key k.data [] hk]
  have he : (⟨k.data⟩ : String) = k := rfl
  have hv : (⟨v.data⟩ : String) = v := rfl
  simp [scanT, he, hv, render, h]

/-! ### Substring facts about the re-raised error message -/

theorem hasSub_cons (pat : Str) (c : Char) (t : Str)
    (h : hasSub pat t = true) : hasSub pat (c :: t) = true := by
  simp [hasSub, h]

theorem hasSub_reprKeys (a : String) (ks : List String) (h : a ∈ ks) :
    hasSub a.data (reprKeys ks) = true := by
  induction ks with
  | nil => cases h
  | cons k rest ih =>
    cases rest with
    | nil =>
      rw [List.mem_singleton] at h
      subst h
      exact hasSub_cons _ _ _ (hasSub_self_append a.data ['\''])
    | cons k2 rest2 =>
      rw [List.mem_cons] at h
      rcases h with h | h
      · subst h
        show hasSub a.data ('\'' :: a.data ++ '\'' :: ',' :: ' ' ::
          reprKeys (k2 :: rest2)) = true
        exact hasSub_cons _ _ _ (hasSub_self_append a.data _)
      · show hasSub a.data ('\'' :: k.data ++ '\'' :: ',' :: ' ' ::
          reprKeys (k2 :: rest2)) = true
        refine hasSub_cons _ _ _ (hasSub_append_left _ _ _ ?_)
        exact hasSub_cons _ _ _ (hasSub_cons _ _ _ (hasSub_cons _ _ _ (ih h)))

theorem isPre_iff (p s : Str) : isPre p s = true ↔ p <+: s := by
  induction p generalizing s with
  | nil => simp [isPre]
  | cons a as ih =>
    cases s with
    | nil => simp [isPre]
    | cons b bs =>
      simp [isPre, List.cons_prefix_cons, ih bs]

theorem hasSub_infix_iff (pat s : Str) : hasSub pat s = true ↔ pat <:+: s := by
  induction s with
  | nil => simp [hasSub, isPre_iff]
  | cons c t ih =>
    simp [hasSub, isPre_iff, ih, List.infix_cons_iff]

theorem hasSub_missingMsg_missing (missing skey : String)
    (avail : List String) :
    hasSub missing.data (missingMsg missing skey avail).data = true := by
  rw [hasSub_infix_iff]
  refine ⟨"Missing key '".data,
    "' in template substitution for '".data ++ skey.data ++
      "'. Available keys: ".data ++ pyReprList avail ++
      ". You likely need to set the key '".data ++ missing.data ++
      "' via 'backend options'.".data, ?_⟩
  simp [missingMsg, String.data_append, List.append_assoc]

theorem hasSub_missingMsg_skey (missing skey : String)
    (avail : List String) :
    hasSub skey.data (missingMsg missing skey avail).data = true := by
  rw [hasSub_infix_iff]
  refine ⟨"Missing key '".data ++ missing.data ++
      "' in template substitution for '".data,
    "'. Available keys: ".data ++ pyReprList avail ++
      ". You likely need to set the key '".data ++ missing.data ++
      "' via 'backend options'.".data, ?_⟩
  simp [missingMsg, String.data_append, List.append_assoc]

theorem hasSub_missingMsg_avail (missing skey : String)
    (avail : List String) (a : String) (h : a ∈ avail) :
    hasSub a.data (missingMsg missing skey avail).data = true := by
  rw [hasSub_infix_iff]
  have h1 : a.data <:+: reprKeys avail :=
    (hasSub_infix_iff _ _).1 (hasSub_reprKeys a avail h)
  have h2 : reprKeys avail <:+: (missingMsg missing skey avail).data := by
    refine ⟨"Missing key '".data ++ missing.data ++
        "' in template substitution for '".data ++ skey.data ++
        "'. Available keys: ".data ++ ['['],
      [']'] ++ ". You likely need to set the key '".data ++ missing.data ++
        "' via 'backend options'.".data, ?_⟩
    simp [missingMsg, pyReprList, String.data_append, List.append_assoc]
  exact h1.trans h2

/-! ### Claims about the template-substitution helper -/

/-- Claim C7: `SetStateFromBackendOptionsTransformation.apply` merges
defaults and options with the options overriding the defaults on every
key present in both: looking up such a key in the merged mapping yields
the option value, and applying a transformation whose template is
exactly that placeholder writes the option value (not the default) into
the state. -/
theorem C7_options_override (d vs : SMap) (k v dv skey : String)
    (st : SMap) (hu : (vs.map Prod.fst).Nodup)
    (hd : lookupS d k = some dv) (hv : lookupS vs k = some v)
    (hk : ∀ c ∈ k.data, c ≠ '\x7b' ∧ c ≠ '\x7d') :
    lookupS (pyMerge d vs) k = some v ∧
    applyT ⟨skey, ⟨'\x7b' :: k.data ++ ['\x7d']⟩, d⟩ vs st =
      (setKey st skey v, none) := by
  have hm := lookupS_pyMerge_of_vars d vs k v hu hv
  refine ⟨hm, ?_⟩
  have hf := formatMap_single k (pyMerge d vs) v hk hm
  simp only [applyT]
  rw [hf]

/-- Closed witness for claim C7: the option value `2` wins over the
default `1` for the colliding key `a`. -/
theorem C7_witness :
    lookupS (pyMerge [("a", "1")] [("a", "2")]) "a" = some "2" ∧
    applyT ⟨"s", ⟨'\x7b' :: "a".data ++ ['\x7d']⟩, [("a", "1")]⟩
      [("a", "2")] [] = (setKey [] "s" "2", none) :=
  C7_options_override [("a", "1")] [("a", "2")] "a" "2" "1" "s" []
    (by decide) (by decide) (by decide) (by decide)

/-- Claim C3: when the template holds a placeholder with no entry in the
merged mapping, `SetStateFromBackendOptionsTransformation.apply` fails
with an error message naming the missing key, the target state key, and
every available key of the merged mapping, and the run-scoped state is
returned entirely unchanged. -/
theorem C3_missing_key (tr : SetStateTr) (vars st : SMap) (k : String)
    (h : formatMap tr.template (pyMerge tr.default_values vars) =
      .error (.missingKey k)) :
    ∃ msg, applyT tr vars st = (st, some (.keyError msg)) ∧
      hasSub k.data msg.data = true ∧
      hasSub tr.key.data msg.data = true ∧
      ∀ a ∈ keysOf (pyMerge tr.default_values vars),
        hasSub a.data msg.data = true := by
  refine ⟨missingMsg k tr.key (keysOf (pyMerge tr.default_values vars)),
    ?_, ?_, ?_, ?_⟩
  · simp [applyT, h]
  · exact hasSub_missingMsg_missing _ _ _
  · exact hasSub_missingMsg_skey _ _ _
  · exact fun a ha => hasSub_missingMsg_avail _ _ _ a ha

/-- Closed witness for claim C3 at a concrete transformation whose
template references the absent key `b`. -/
theorem C3_witness :
    ∃ msg, applyT ⟨"t", "{b}", [("a", "1")]⟩ [] [("z", "w")] =
        ([("z", "w")], some (.keyError msg)) ∧
      hasSub "b".data msg.data = true ∧
      hasSub "t".data msg.data = true ∧
      ∀ a ∈ keysOf (pyMerge [("a", "1")] []),
        hasSub a.data msg.data = true :=
  C3_missing_key ⟨"t", "{b}", [("a", "1")]⟩ [] [("z", "w")] "b" rfl

/-! ### Wildcard-translation counting lemmas -/

theorem count_map_pyLower_symbol (c : Char) (h1 : upperAscii c = false)
    (h2 : c ∉ lowerList) (s : Str) :
    (s.map pyLower).count c = s.count c :=
  count_map_iff pyLower c (pyLower_eq_symbol c h1 h2) s

theorem transWild_contains_star (s : Str) :
    (s.map (transWild .containsS)).count '*' = 0 := by
  refine count_map_zero _ _ (fun x => ?_) s
  by_cases h1 : x = '*'
  · simp [transWild, h1]
  · by_cases h2 : x = '?' <;> simp [transWild, h1, h2]

theorem transWild_contains_question (s : Str) :
    (s.map (transWild .containsS)).count '?' = 0 := by
  refine count_map_zero _ _ (fun x => ?_) s
  by_cases h1 : x = '*'
  · simp [transWild, h1]
  · by_cases h2 : x = '?' <;> simp [transWild, h1, h2]

theorem transWild_contains_percent (s : Str) :
    (s.map (transWild .containsS)).count '%' = s.count '%' + s.count '*' := by
  refine count_map_two _ _ '*' (by decide) (fun x => ?_) s
  by_cases h1 : x = '*'
  · simp [transWild, h1]
  · by_cases h2 : x = '?' <;> simp [transWild, h1, h2]

theorem transWild_contains_underscore (s : Str) :
    (s.map (transWild .containsS)).count '_' = s.count '_' + s.count '?' := by
  refine count_map_two _ _ '?' (by decide) (fun x => ?_) s
  by_cases h1 : x = '*'
  · simp [transWild, h1]
  · by_cases h2 : x = '?' <;> simp [transWild, h1, h2]

/-- The count of a non-backslash symbol in a contains-mode body: the
count in the translated escaped literal, plus 2 for the two bracketing
`%` wildcards when the symbol is `%`. -/
theorem count_mkLikeBody_contains (cs : Bool) (lit : Str) (c : Char)
    (h1 : upperAscii c = false) (h2 : c ∉ lowerList) :
    (mkLikeBody .containsS cs lit).count c =
      ((escapeLike lit).map (transWild .containsS)).count c +
        (if c = '%' then 2 else 0) := by
  have harith : ∀ n : Nat,
      ((n + if '%' = c then 1 else 0) + if '%' = c then 1 else 0) =
        n + (if c = '%' then 2 else 0) := by
    intro n
    by_cases hc : c = '%'
    · subst hc; simp
    · have hc' : ¬ ('%' = c) := fun h => hc h.symm
      simp [hc, hc']
  unfold mkLikeBody bracket lowerIf
  cases cs with
  | true =>
    simp only [if_true, if_pos rfl, List.count_cons, List.count_append,
      List.count_nil, beq_iff_eq, Nat.zero_add]
    exact harith _
  | false =>
    simp only [Bool.false_eq_true, if_false, List.count_cons,
      List.count_append, List.count_nil, beq_iff_eq, Nat.zero_add]
    rw [count_map_pyLower_symbol c h1 h2]
    exact harith _

/-! ### Claims about the wildcard/literal escaper -/

/-- Counterexample to claim C1 as stated: for the repository test's
literal `val*a` under `contains`, the emitted body is `%val%a%` - the
source `*` does not appear as a literal `*` (the body holds no `*` at
all) and the body holds an internal `%` beyond the two bracketing ones,
exactly as `test_athena_contains_list_with_literal_star_and_question`
asserts. -/
theorem C1_counterexample :
    mkLikeBody .containsS false "val*a".data = "%val%a%".data ∧
    (mkLikeBody .containsS false "val*a".data).count '*' = 0 ∧
    (mkLikeBody .containsS false "val*a".data).count '%' = 3 ∧
    mkPredicate .containsS false "fieldA".data "val*a".data =
      "LOWER(fieldA) LIKE '%val%a%' ESCAPE '\\'".data :=
  ⟨by decide, by decide, by decide, by decide⟩

/-- Claim C1 (amended): in every contains-mode LIKE body, the generic
wildcards are translated - `?` to `_` and `*` to `%` (so neither `*` nor
`?` survives), the `%` wildcards number exactly two bracketing ones plus
one per source `*` and one per escaped source `%`, and the `_`
characters are exactly the translated `?`s plus the escaped source
`_`s. -/
theorem C1_contains_wildcards (lit : Str) (cs : Bool) :
    (mkLikeBody .containsS cs lit).count '*' = 0 ∧
    (mkLikeBody .containsS cs lit).count '?' = 0 ∧
    (mkLikeBody .containsS cs lit).count '%' =
      2 + lit.count '*' + lit.count '%' ∧
    (mkLikeBody .containsS cs lit).count '_' =
      lit.count '?' + lit.count '_' := by
  refine ⟨?_, ?_, ?_, ?_⟩
  · rw [count_mkLikeBody_contains cs lit '*' (by decide) (by decide),
      transWild_contains_star]
    simp
  · rw [count_mkLikeBody_contains cs lit '?' (by decide) (by decide),
      transWild_contains_question]
    simp
  · rw [count_mkLikeBody_contains cs lit '%' (by decide) (by decide),
      transWild_contains_percent,
      count_escapeLike '%' (by decide) lit,
      count_escapeLike '*' (by decide) lit]
    simp
    omega
  · rw [count_mkLikeBody_contains cs lit '_' (by decide) (by decide),
      transWild_contains_underscore,
      count_escapeLike '_' (by decide) lit,
      count_escapeLike '?' (by decide) lit]
    simp
    omega

/-! ### LIKE-body token parsing lemmas -/

theorem parseLike_cons_ne (d : Char) (hd : d ≠ '\\') (t : Str) :
    parseLike (d :: t) = (fun ts => LTok.raw d :: ts) <$> parseLike t := by
  cases t <;> simp [parseLike, hd]

theorem parseLike_esc (d : Char) (t : Str) :
    parseLike ('\\' :: d :: t) =
      (fun ts => LTok.esc d :: ts) <$> parseLike t := by
  simp [parseLike]

/-- Parsing the escaped-and-translated literal: provided the per-char
translation `g` fixes the backslash and the metacharacters and never
creates a backslash, the body parses into one escaped token per source
metacharacter and one raw token per other source character. -/
theorem parseLike_core (g : Char → Char)
    (hg1 : g '\\' = '\\')
    (hg2 : ∀ c, (c = '%' ∨ c = '_' ∨ c = '\\') → g c = c)
    (hg3 : ∀ c, ¬(c = '%' ∨ c = '_' ∨ c = '\\') → g c ≠ '\\')
    (lit t : Str) (r : List LTok) (h : parseLike t = some r) :
    parseLike ((escapeLike lit).map g ++ t) = some
      ((lit.map (fun c => if c = '%' ∨ c = '_' ∨ c = '\\' then LTok.esc c
        else LTok.raw (g c))) ++ r) := by
  induction lit with
  | nil => simpa using h
  | cons c rest ih =>
    unfold escapeLike
    by_cases hc : c = '%' ∨ c = '_' ∨ c = '\\'
    · rw [if_pos hc, List.map_cons, List.map_cons, hg1, List.cons_append,
        List.cons_append, parseLike_esc, ih]
      simp [hc, hg2 c hc]
    · rw [if_neg hc, List.map_cons, List.cons_append,
        parseLike_cons_ne (g c) (hg3 c hc), ih]
      simp [hc]

theorem count_esc_coreToks (g : Char → Char) (m : Char)
    (hm : m = '%' ∨ m = '_' ∨ m = '\\') (lit : Str) :
    ((lit.map (fun c => if c = '%' ∨ c = '_' ∨ c = '\\' then LTok.esc c
      else LTok.raw (g c))).count (LTok.esc m)) = lit.count m := by
  induction lit with
  | nil => rfl
  | cons c rest ih =>
    rw [List.map_cons]
    by_cases hc : c = '%' ∨ c = '_' ∨ c = '\\'
    · rw [if_pos hc]
      simp only [List.count_cons, ih, beq_iff_eq, LTok.esc.injEq]
    · rw [if_neg hc]
      have h1 : ¬ (LTok.raw (g c) = LTok.esc m) := by simp
      have h2 : ¬ (c = m) := fun he => hc (he ▸ hm)
      simp only [List.count_cons, ih, beq_iff_eq, h1, h2, if_false]

theorem mem_esc_coreToks (g : Char → Char) (lit : Str) (c : Char)
    (h : LTok.esc c ∈ lit.map (fun x =>
      if x = '%' ∨ x = '_' ∨ x = '\\' then LTok.esc x
      else LTok.raw (g x))) :
    c = '%' ∨ c = '_' ∨ c = '\\' := by
  induction lit with
  | nil => cases h
  | cons x rest ih =>
    rw [List.map_cons, List.mem_cons] at h
    rcases h with h | h
    · by_cases hx : x = '%' ∨ x = '_' ∨ x = '\\'
      · rw [if_pos hx] at h
        cases h
        exact hx
      · rw [if_neg hx] at h
        cases h
    · exact ih h

/-! ### Claims about the wildcard/literal escaper (escaping) -/

/-- Claim C4: in every pattern-shape LIKE body, each source occurrence
of `%`, `_` or `\` appears as a backslash-escaped token (exactly one
escape per source occurrence, counted per character), every escaped
token of the body arises from one of those three characters, and the
assembled LIKE predicate always ends with `ESCAPE '\'`. -/
theorem C4_escaping (lit id : Str) (shape : Shape) (cs : Bool)
    (hs : shape = .containsS ∨ shape = .startsS ∨ shape = .endsS) :
    ∃ toks, parseLike (mkLikeBody shape cs lit) = some toks ∧
      toks.count (.esc '%') = lit.count '%' ∧
      toks.count (.esc '_') = lit.count '_' ∧
      toks.count (.esc '\\') = lit.count '\\' ∧
      (∀ c, LTok.esc c ∈ toks → c = '%' ∨ c = '_' ∨ c = '\\') ∧
      isSuf ("ESCAPE '\\'".data) (mkPredicate shape cs id lit) = true := by
  classical
  set g : Char → Char :=
    fun c => if cs then transWild shape c else pyLower (transWild shape c)
    with hgdef
  have hbody : mkLikeBody shape cs lit =
      bracket shape ((escapeLike lit).map g) := by
    unfold mkLikeBody lowerIf
    cases cs with
    | true => simp [hgdef]
    | false => simp [hgdef, List.map_map, Function.comp_def]
  have hg1 : g '\\' = '\\' := by
    rcases hs with h | h | h <;> subst h <;> cases cs <;>
      simp [hgdef, transWild] <;> decide
  have hg2 : ∀ c, (c = '%' ∨ c = '_' ∨ c = '\\') → g c = c := by
    intro c hc
    rcases hc with rfl | rfl | rfl <;>
      rcases hs with h | h | h <;> subst h <;> cases cs <;>
      simp [hgdef, transWild] <;> decide
  have hg3 : ∀ c, ¬(c = '%' ∨ c = '_' ∨ c = '\\') → g c ≠ '\\' := by
    intro c hc
    push_neg at hc
    have htr : transWild shape c = '%' ∨ transWild shape c = '_' ∨
        transWild shape c = c := by
      rcases hs with h | h | h <;> subst h <;>
        by_cases h1 : c = '*' <;> by_cases h2 : c = '?' <;>
        simp [transWild, h1, h2]
    cases cs with
    | true =>
      have : g c = transWild shape c := by simp [hgdef]
      rcases htr with h | h | h
      · rw [this, h]; decide
      · rw [this, h]; decide
      · rw [this, h]; exact hc.2.2
    | false =>
      have : g c = pyLower (transWild shape c) := by simp [hgdef]
      rcases htr with h | h | h
      · rw [this, h]; decide
      · rw [this, h]; decide
      · rw [this, h]
        intro he
        exact hc.2.2 ((pyLower_eq_symbol '\\' (by decide) (by decide) c).1 he)
  have hsuf : isSuf ("ESCAPE '\\'".data) (mkPredicate shape cs id lit)
      = true := by
    rcases hs with h | h | h <;> subst h <;> cases cs <;>
      · simp only [mkPredicate, if_true, if_false, Bool.false_eq_true]
        exact isSuf_append_left _ _ _ (by decide)
  rcases hs with h | h | h
  · subst h
    rw [hbody]
    have hp : parseLike (['%'] : Str) = some [LTok.raw '%'] := by decide
    have hmain := parseLike_core g hg1 hg2 hg3 lit ['%'] [LTok.raw '%'] hp
    refine ⟨LTok.raw '%' :: (lit.map (fun c =>
      if c = '%' ∨ c = '_' ∨ c = '\\' then LTok.esc c
      else LTok.raw (g c)) ++ [LTok.raw '%']), ?_, ?_, ?_, ?_, ?_, hsuf⟩
    · show parseLike ('%' :: ((escapeLike lit).map g ++ ['%'])) = _
      rw [parseLike_cons_ne '%' (by decide) _, hmain]
      rfl
    · simp [List.count_cons, List.count_append,
        count_esc_coreToks g '%' (by tauto) lit]
    · simp [List.count_cons, List.count_append,
        count_esc_coreToks g '_' (by tauto) lit]
    · simp [List.count_cons, List.count_append,
        count_esc_coreToks g '\\' (by tauto) lit]
    · intro c hcmem
      rcases List.mem_cons.1 hcmem with h | h
      · cases h
      · rcases List.mem_append.1 h with h | h
        · exact mem_esc_coreToks g lit c h
        · simp at h
  · subst h
    rw [hbody]
    have hp : parseLike (['%'] : Str) = some [LTok.raw '%'] := by decide
    have hmain := parseLike_core g hg1 hg2 hg3 lit ['%'] [LTok.raw '%'] hp
    refine ⟨(lit.map (fun c =>
      if c = '%' ∨ c = '_' ∨ c = '\\' then LTok.esc c
      else LTok.raw (g c)) ++ [LTok.raw '%']), ?_, ?_, ?_, ?_, ?_, hsuf⟩
    · exact hmain
    · simp [List.count_append,
        count_esc_coreToks g '%' (by tauto) lit]
    · simp [List.count_append,
        count_esc_coreToks g '_' (by tauto) lit]
    · simp [List.count_append,
        count_esc_coreToks g '\\' (by tauto) lit]
    · intro c hcmem
      rcases List.mem_append.1 hcmem with h | h
      · exact mem_esc_coreToks g lit c h
      · simp at h
  · subst h
    rw [hbody]
    have hp : parseLike ([] : Str) = some [] := rfl
    have hmain := parseLike_core g hg1 hg2 hg3 lit [] [] hp
    rw [List.append_nil] at hmain
    refine ⟨LTok.raw '%' :: (lit.map (fun c =>
      if c = '%' ∨ c = '_' ∨ c = '\\' then LTok.esc c
      else LTok.raw (g c)) ++ []), ?_, ?_, ?_, ?_, ?_, hsuf⟩
    · show parseLike ('%' :: (escapeLike lit).map g) = _
      rw [parseLike_cons_ne '%' (by decide) _, hmain]
      simp
    · simp [List.count_cons, List.count_append,
        count_esc_coreToks g '%' (by tauto) lit]
    · simp [List.count_cons, List.count_append,
        count_esc_coreToks g '_' (by tauto) lit]
    · simp [List.count_cons, List.count_append,
        count_esc_coreToks g '\\' (by tauto) lit]
    · intro c hcmem
      rcases List.mem_cons.1 hcmem with h | h
      · cases h
      · rcases List.mem_append.1 h with h | h
        · exact mem_esc_coreToks g lit c h
        · simp at h

/-- Closed witness for claim C4 on a literal holding all three
metacharacters. -/
theorem C4_witness :
    (Shape.containsS = Shape.containsS ∨ Shape.containsS = Shape.startsS ∨
      Shape.containsS = Shape.endsS) ∧
    ∃ toks, parseLike (mkLikeBody .containsS false "a%b_c\\d".data) =
        some toks ∧
      toks.count (.esc '%') = "a%b_c\\d".data.count '%' ∧
      toks.count (.esc '_') = "a%b_c\\d".data.count '_' ∧
      toks.count (.esc '\\') = "a%b_c\\d".data.count '\\' ∧
      (∀ c, LTok.esc c ∈ toks → c = '%' ∨ c = '_' ∨ c = '\\') ∧
      isSuf ("ESCAPE '\\'".data)
        (mkPredicate .containsS false "f".data "a%b_c\\d".data) = true :=
  ⟨Or.inl rfl,
    C4_escaping "a%b_c\\d".data "f".data .containsS false (Or.inl rfl)⟩

/-! ### Claims about case folding in assembled predicates -/

theorem count_bracket_ne (shape : Shape)
    (hs : shape = .containsS ∨ shape = .startsS ∨ shape = .endsS)
    (X : Str) (c : Char) (hc : c ≠ '%') :
    (bracket shape X).count c = X.count c := by
  have hc' : ¬ ('%' = c) := fun he => hc he.symm
  rcases hs with h | h | h <;> subst h <;>
    simp [bracket, List.count_cons, List.count_append, hc']

/-- Counterexample to claim C5 as stated: the case-insensitive contains
predicate for literal `ABC` wraps only the identifier in `LOWER(...)`;
the literal operand is textually lower-cased inside the quoted pattern,
so the substring `LOWER(` occurs exactly once, not once per operand. -/
theorem C5_counterexample :
    mkPredicate .containsS false "fieldA".data "ABC".data =
      "LOWER(fieldA) LIKE '%abc%' ESCAPE '\\'".data ∧
    countSub "LOWER(".data
      (mkPredicate .containsS false "fieldA".data "ABC".data) = 1 :=
  ⟨by decide, by decide⟩

/-- Claim C5 (amended): without `cased`, the identifier is wrapped in
`LOWER(...)` in equality, pattern and fieldref predicates, and the
literal operand is wrapped in `LOWER('...')` for equality (the fieldref
operand likewise) but only textually lower-cased - never wrapped - in
pattern predicates (the body then holds no ASCII uppercase letter);
with `cased`, neither side is wrapped in `LOWER` and every uppercase
letter of the literal survives verbatim in the pattern body. -/
theorem C5_lower_wrapping (id lit : Str) (shape : Shape)
    (hs : shape = .containsS ∨ shape = .startsS ∨ shape = .endsS) :
    mkPredicate .eqS false id lit =
      "LOWER(".data ++ id ++ ") = LOWER('".data ++
        (escapeLike lit).map pyLower ++ "')".data ∧
    mkPredicate shape false id lit =
      "LOWER(".data ++ id ++ ") LIKE '".data ++
        mkLikeBody shape false lit ++ "' ESCAPE '\\'".data ∧
    (∀ c, upperAscii c = true → (mkLikeBody shape false lit).count c = 0) ∧
    mkPredicate shape true id lit =
      id ++ " LIKE '".data ++ mkLikeBody shape true lit ++
        "' ESCAPE '\\'".data ∧
    (∀ c, upperAscii c = true →
      (mkLikeBody shape true lit).count c = lit.count c) ∧
    mkPredicate .eqS true id lit =
      id ++ " = '".data ++ escapeLike lit ++ "'".data ∧
    mkPredicate .fieldrefS false id lit =
      "LOWER(".data ++ id ++ ") = LOWER(".data ++ lit ++ ")".data := by
  have hupper : ∀ c : Char, upperAscii c = true →
      c ≠ '%' ∧ c ≠ '_' ∧ c ≠ '\\' ∧ c ≠ '*' ∧ c ≠ '?' := by
    intro c hcu
    have hne : ∀ d : Char, upperAscii d = false → c ≠ d :=
      fun d hd he => absurd (he ▸ hcu) (by simp [hd])
    exact ⟨hne '%' (by decide), hne '_' (by decide), hne '\\' (by decide),
      hne '*' (by decide), hne '?' (by decide)⟩
  refine ⟨rfl, ?_, ?_, ?_, ?_, rfl, rfl⟩
  · rcases hs with h | h | h <;> subst h <;> rfl
  · intro c hcu
    obtain ⟨h1, _, _, _, _⟩ := hupper c hcu
    unfold mkLikeBody lowerIf
    rw [count_bracket_ne shape hs _ c h1]
    simp only [Bool.false_eq_true, if_false]
    refine count_map_zero _ _ (fun x he => ?_) _
    exact absurd (he ▸ upperAscii_pyLower x) (by simp [hcu])
  · rcases hs with h | h | h <;> subst h <;> rfl
  · intro c hcu
    obtain ⟨h1, h2, h3, h4, h5⟩ := hupper c hcu
    unfold mkLikeBody lowerIf
    rw [count_bracket_ne shape hs _ c h1]
    simp only [if_true]
    have htr : ∀ x : Char, (transWild shape x = c) ↔ (x = c) := by
      intro x
      rcases hs with h | h | h <;> subst h <;>
        by_cases hx1 : x = '*' <;> by_cases hx2 : x = '?' <;>
        simp [transWild, hx1, hx2, Ne.symm h1, Ne.symm h2, Ne.symm h4,
          Ne.symm h5]
    rw [count_map_iff _ _ htr, count_escapeLike c h3]

/-- Closed witness for the amended claim C5, on the repository's test
inputs `fieldA|contains: ABC` (case-insensitive: identifier wrapped,
uppercase gone from the body) and `fieldA|cased|contains: SubString`
(no wrapping, uppercase preserved). -/
theorem C5_witness :
    mkPredicate .containsS false "fieldA".data "ABC".data =
      "LOWER(".data ++ "fieldA".data ++ ") LIKE '".data ++
        mkLikeBody .containsS false "ABC".data ++ "' ESCAPE '\\'".data ∧
    (mkLikeBody .containsS false "ABC".data).count 'A' = 0 ∧
    mkPredicate .containsS true "fieldA".data "SubString".data =
      "fieldA".data ++ " LIKE '".data ++
        mkLikeBody .containsS true "SubString".data ++
        "' ESCAPE '\\'".data ∧
    (mkLikeBody .containsS true "SubString".data).count 'S' =
      "SubString".data.count 'S' :=
  ⟨(C5_lower_wrapping "fieldA".data "ABC".data .containsS (Or.inl rfl)).2.1,
   (C5_lower_wrapping "fieldA".data "ABC".data .containsS
     (Or.inl rfl)).2.2.1 'A' (by decide),
   (C5_lower_wrapping "fieldA".data "SubString".data .containsS
     (Or.inl rfl)).2.2.2.1,
   (C5_lower_wrapping "fieldA".data "SubString".data .containsS
     (Or.inl rfl)).2.2.2.2.1 'S' (by decide)⟩

/-! ### Identifier-resolver lemmas -/

theorem consHead_ne_nil (c : Char) (l : List Str) : consHead c l ≠ [] := by
  cases l <;> simp [consHead]

theorem splitDots_cons_ne (c : Char) (h1 : c ≠ '.') (h2 : c ≠ '\\')
    (t : Str) : splitDots (c :: t) = consHead c (splitDots t) := by
  cases t with
  | nil => simp [splitDots, h1, h2]
  | cons d rest => simp [splitDots, h1, h2]

theorem splitDots_dot (t : Str) : splitDots ('.' :: t) = [] :: splitDots t := by
  cases t <;> simp [splitDots]

theorem splitDots_escaped_dot (t : Str) :
    splitDots ('\\' :: '.' :: t) = consHead '.' (splitDots t) := by
  simp [splitDots]

theorem splitDots_backslash_ne (d : Char) (hd : d ≠ '.') (rest : Str) :
    splitDots ('\\' :: d :: rest) = consHead '\\' (splitDots (d :: rest)) := by
  simp [splitDots, hd]

theorem splitDots_ne_nil (s : Str) : splitDots s ≠ [] := by
  cases s with
  | nil => simp [splitDots]
  | cons c t =>
    by_cases h1 : c = '.'
    · subst h1
      rw [splitDots_dot]
      simp
    · by_cases h2 : c = '\\'
      · subst h2
        cases t with
        | nil => simp [splitDots, consHead]
        | cons d rest =>
          by_cases hd : d = '.'
          · subst hd
            rw [splitDots_escaped_dot]
            exact consHead_ne_nil _ _
          · rw [splitDots_backslash_ne d hd rest]
            exact consHead_ne_nil _ _
      · rw [splitDots_cons_ne c h1 h2]
        exact consHead_ne_nil _ _

/-- Splitting a string whose leading segment is dot- and backslash-free
prepends that segment onto the first segment of the rest's split. -/
theorem splitDots_seg (s r : Str)
    (hs : ∀ c ∈ s, c ≠ '.' ∧ c ≠ '\\') :
    splitDots (s ++ r) =
      (s ++ (splitDots r).headI) :: (splitDots r).tail := by
  induction s with
  | nil =>
    cases hr : splitDots r with
    | nil => exact absurd hr (splitDots_ne_nil r)
    | cons a l => simp [hr]
  | cons c s' ih =>
    have hc := hs c (List.mem_cons_self c s')
    have hrest : ∀ x ∈ s', x ≠ '.' ∧ x ≠ '\\' :=
      fun x hx => hs x (List.mem_cons_of_mem c hx)
    rw [List.cons_append, splitDots_cons_ne c hc.1 hc.2, ih hrest]
    simp [consHead]

theorem splitDots_joinDots (segs : List Str) (hne : segs ≠ [])
    (hs : ∀ seg ∈ segs, ∀ c ∈ seg, c ≠ '.' ∧ c ≠ '\\') :
    splitDots (joinDots segs) = segs := by
  induction segs with
  | nil => exact absurd rfl hne
  | cons seg rest ih =>
    have hseg := hs seg (List.mem_cons_self seg rest)
    have hrest : ∀ s ∈ rest, ∀ c ∈ s, c ≠ '.' ∧ c ≠ '\\' :=
      fun s hsm => hs s (List.mem_cons_of_mem seg hsm)
    cases rest with
    | nil =>
      show splitDots (joinDots [seg]) = [seg]
      rw [show joinDots [seg] = seg from rfl,
        show (seg : Str) = seg ++ [] from (List.append_nil seg).symm,
        splitDots_seg seg [] hseg]
      simp [splitDots]
    | cons seg2 rest2 =>
      show splitDots (seg ++ '.' :: joinDots (seg2 :: rest2)) =
        seg :: seg2 :: rest2
      rw [splitDots_seg seg _ hseg, splitDots_dot,
        ih (by simp) hrest]
      simp

/-! ### Claim about the identifier resolver -/

/-- Claim C6: a field whose first dot segment is configured unmapped
resolves to `element_at(<container>, '<path>')` with the remaining
segments re-joined by literal dots inside the string literal, and a
mapped field with a backslash-escaped dot resolves the escaped-dot
segment as one quoted sub-identifier; in particular
`unmapped.serviceEventDetails.account_id` resolves to
`element_at(unmapped, 'serviceEventDetails.account_id')` and
`actor.user\.uid` resolves to `actor."user.uid"`. -/
theorem C6_identifier_resolver :
    (∀ (container : Str) (segs : List Str) (fields : List String),
      fields.contains ⟨container⟩ = true → segs ≠ [] →
      (∀ c ∈ container, c ≠ '.' ∧ c ≠ '\\') →
      (∀ seg ∈ segs, ∀ c ∈ seg, c ≠ '.' ∧ c ≠ '\\') →
      resolveField fields ⟨joinDots (container :: segs)⟩ =
        ⟨"element_at(".data ++ container ++ ", '".data ++
          joinDots segs ++ "')".data⟩) ∧
    (∀ (pfx b1 b2 : Str) (fields : List String),
      fields.contains ⟨pfx⟩ = false →
      (∀ c ∈ pfx, isBareChar c = true) →
      (∀ c ∈ b1, c ≠ '.' ∧ c ≠ '\\') →
      (∀ c ∈ b2, c ≠ '.' ∧ c ≠ '\\') →
      resolveField fields ⟨pfx ++ ('.' :: (b1 ++ ('\\' :: '.' :: b2)))⟩ =
        ⟨pfx ++ ('.' :: (('"' :: (b1 ++ ('.' :: b2))) ++ ['"']))⟩) ∧
    resolveField ["unmapped"] "unmapped.serviceEventDetails.account_id" =
      "element_at(unmapped, 'serviceEventDetails.account_id')" ∧
    resolveField ["unmapped"] "actor.user\\.uid" = "actor.\"user.uid\"" := by
  refine ⟨?_, ?_, by decide, by decide⟩
  · intro container segs fields hf hne hcont hsegs
    have hsplit : splitDots (joinDots (container :: segs)) =
        container :: segs := by
      refine splitDots_joinDots _ (by simp) ?_
      intro seg hm
      rcases List.mem_cons.1 hm with rfl | hm
      · exact hcont
      · exact hsegs seg hm
    unfold resolveField
    rw [show (String.mk (joinDots (container :: segs))).data =
      joinDots (container :: segs) from rfl, hsplit]
    have hempty : segs.isEmpty = false := by
      cases segs with
      | nil => exact absurd rfl hne
      | cons a l => rfl
    simp only [hf, hempty, Bool.not_false, Bool.and_self, if_true]
  · intro pfx b1 b2 fields hf hbare hb1 hb2
    have hbare' : ∀ c ∈ pfx, c ≠ '.' ∧ c ≠ '\\' := by
      intro c hm
      have hb := hbare c hm
      constructor
      · intro he
        rw [he] at hb
        exact absurd hb (by decide)
      · intro he
        rw [he] at hb
        exact absurd hb (by decide)
    have hsplit : splitDots (pfx ++ ('.' :: (b1 ++ ('\\' :: '.' :: b2)))) =
        [pfx, b1 ++ ('.' :: b2)] := by
      rw [splitDots_seg pfx _ hbare', splitDots_dot,
        splitDots_seg b1 _ hb1, splitDots_escaped_dot]
      have hb2split : splitDots b2 = [b2] := by
        rw [show (b2 : Str) = b2 ++ [] from (List.append_nil b2).symm,
          splitDots_seg b2 [] hb2]
        simp [splitDots]
      rw [hb2split]
      simp [consHead]
    unfold resolveField
    rw [show (String.mk (pfx ++ ('.' :: (b1 ++ ('\\' :: '.' :: b2))))).data =
      pfx ++ ('.' :: (b1 ++ ('\\' :: '.' :: b2))) from rfl, hsplit]
    have hq1 : quoteIdent pfx = pfx := by
      unfold quoteIdent
      rw [if_pos (List.all_eq_true.2 hbare)]
    have hq2 : quoteIdent (b1 ++ ('.' :: b2)) =
        ('"' :: (b1 ++ ('.' :: b2))) ++ ['"'] := by
      unfold quoteIdent
      rw [if_neg ?_]
      intro hall
      have := List.all_eq_true.1 hall '.' (by simp)
      exact absurd this (by decide)
    simp only [hf, Bool.false_and, Bool.false_eq_true, if_false,
      List.map_cons, List.map_nil, hq1, hq2, joinDots]

/-- Closed witness for claim C6: its two general clauses instantiated on
the repository's test fields. -/
theorem C6_witness :
    resolveField ["unmapped"]
      ⟨joinDots ["unmapped".data, "serviceEventDetails".data,
        "account_id".data]⟩ =
      ⟨"element_at(".data ++ "unmapped".data ++ ", '".data ++
        joinDots ["serviceEventDetails".data, "account_id".data] ++
        "')".data⟩ ∧
    resolveField ["unmapped"]
      ⟨"actor".data ++ ('.' :: ("user".data ++
        ('\\' :: '.' :: "uid".data)))⟩ =
      ⟨"actor".data ++ ('.' :: (('"' :: ("user".data ++
        ('.' :: "uid".data))) ++ ['"']))⟩ :=
  ⟨C6_identifier_resolver.1 "unmapped".data
      ["serviceEventDetails".data, "account_id".data] ["unmapped"]
      (by decide) (by decide) (by decide) (by decide),
    C6_identifier_resolver.2.1 "actor".data "user".data "uid".data
      ["unmapped"] (by decide) (by decide) (by decide) (by decide)⟩

/-! ### Reduction lemmas for the dash-to-underscore apply -/

theorem applyDash_of_applyT_error (tr : SetStateTr) (vars st st2 : SMap)
    (e : AErr) (h : applyT tr vars st = (st2, some e)) :
    applyDash tr vars st = (st2, some e) := by
  unfold applyDash
  rw [h]

theorem applyDash_of_applyT_ok (tr : SetStateTr) (vars st : SMap)
    (v : String) (h : applyT tr vars st = (setKey st tr.key v, none)) :
    applyDash tr vars st = (setKey st tr.key (dashRepl v), none) := by
  unfold applyDash
  rw [h]
  show (match lookupS (setKey st tr.key v) tr.key with
    | some cur => (setKey (setKey st tr.key v) tr.key (dashRepl cur), none)
    | none => (setKey st tr.key v, some AErr.stateKeyError)) = _
  rw [lookupS_setKey_self]
  show (setKey (setKey st tr.key v) tr.key (dashRepl v), none) = _
  rw [setKey_setKey]

/-! ### Two-placeholder templates (security-lake table names) -/

theorem scanT_two_ph (p1 p2 : Str) (k1 k2 : String)
    (hp1 : ∀ c ∈ p1, c ≠ '\x7b' ∧ c ≠ '\x7d')
    (hp2 : ∀ c ∈ p2, c ≠ '\x7b' ∧ c ≠ '\x7d')
    (hk1 : ∀ c ∈ k1.data, c ≠ '\x7b' ∧ c ≠ '\x7d')
    (hk2 : ∀ c ∈ k2.data, c ≠ '\x7b' ∧ c ≠ '\x7d') :
    scanT none (p1 ++ ('\x7b' :: (k1.data ++ ('\x7d' ::
        (p2 ++ ('\x7b' :: (k2.data ++ ['\x7d']))))))) =
      .ok (p1.map Tok.lit ++
        (Tok.ph k1 :: (p2.map Tok.lit ++ [Tok.ph k2]))) := by
  rw [scanT_lit_chunk p1 _ hp1, scanT_open_key k1.data _ hk1,
    scanT_lit_chunk p2 _ hp2, scanT_open_key k2.data _ hk2,
    show scanT none [] = Except.ok [] from rfl]
  have he1 : (⟨k1.data⟩ : String) = k1 := rfl
  have he2 : (⟨k2.data⟩ : String) = k2 := rfl
  simp [he1, he2]

theorem render_two_ph_missing (m : SMap) (p1 p2 : Str) (k1 k2 : String)
    (h : lookupS m k1 = none) :
    render m (p1.map Tok.lit ++
        (Tok.ph k1 :: (p2.map Tok.lit ++ [Tok.ph k2]))) =
      .error (.missingKey k1) := by
  rw [render_lit_chunk, render_ph_missing m k1 _ h]
  rfl

theorem render_two_ph_found (m : SMap) (p1 p2 : Str) (k1 k2 v1 v2 : String)
    (h1 : lookupS m k1 = some v1) (h2 : lookupS m k2 = some v2) :
    render m (p1.map Tok.lit ++
        (Tok.ph k1 :: (p2.map Tok.lit ++ [Tok.ph k2]))) =
      .ok (p1 ++ (v1.data ++ (p2 ++ v2.data))) := by
  rw [render_lit_chunk, render_ph_found m k1 v1 _ h1,
    render_lit_chunk, render_ph_found m k2 v2 _ h2,
    show render m [] = Except.ok [] from rfl]
  simp

theorem formatMap_two_ph_missing (p1 p2 : Str) (k1 k2 : String) (m : SMap)
    (hp1 : ∀ c ∈ p1, c ≠ '\x7b' ∧ c ≠ '\x7d')
    (hp2 : ∀ c ∈ p2, c ≠ '\x7b' ∧ c ≠ '\x7d')
    (hk1 : ∀ c ∈ k1.data, c ≠ '\x7b' ∧ c ≠ '\x7d')
    (hk2 : ∀ c ∈ k2.data, c ≠ '\x7b' ∧ c ≠ '\x7d')
    (h : lookupS m k1 = none) :
    formatMap ⟨p1 ++ ('\x7b' :: (k1.data ++ ('\x7d' ::
        (p2 ++ ('\x7b' :: (k2.data ++ ['\x7d']))))))⟩ m =
      .error (.missingKey k1) := by
  unfold formatMap
  rw [show (String.mk (p1 ++ ('\x7b' :: (k1.data ++ ('\x7d' ::
      (p2 ++ ('\x7b' :: (k2.data ++ ['\x7d'])))))))).data =
    p1 ++ ('\x7b' :: (k1.data ++ ('\x7d' ::
      (p2 ++ ('\x7b' :: (k2.data ++ ['\x7d'])))))) from rfl,
    scanT_two_ph p1 p2 k1 k2 hp1 hp2 hk1 hk2]
  simp [render_two_ph_missing m p1 p2 k1 k2 h]

theorem formatMap_two_ph_found (p1 p2 : Str) (k1 k2 : String) (m : SMap)
    (v1 v2 : String)
    (hp1 : ∀ c ∈ p1, c ≠ '\x7b' ∧ c ≠ '\x7d')
    (hp2 : ∀ c ∈ p2, c ≠ '\x7b' ∧ c ≠ '\x7d')
    (hk1 : ∀ c ∈ k1.data, c ≠ '\x7b' ∧ c ≠ '\x7d')
    (hk2 : ∀ c ∈ k2.data, c ≠ '\x7b' ∧ c ≠ '\x7d')
    (h1 : lookupS m k1 = some v1) (h2 : lookupS m k2 = some v2) :
    formatMap ⟨p1 ++ ('\x7b' :: (k1.data ++ ('\x7d' ::
        (p2 ++ ('\x7b' :: (k2.data ++ ['\x7d']))))))⟩ m =
      .ok ⟨p1 ++ (v1.data ++ (p2 ++ v2.data))⟩ := by
  unfold formatMap
  rw [show (String.mk (p1 ++ ('\x7b' :: (k1.data ++ ('\x7d' ::
      (p2 ++ ('\x7b' :: (k2.data ++ ['\x7d'])))))))).data =
    p1 ++ ('\x7b' :: (k1.data ++ ('\x7d' ::
      (p2 ++ ('\x7b' :: (k2.data ++ ['\x7d'])))))) from rfl,
    scanT_two_ph p1 p2 k1 k2 hp1 hp2 hk1 hk2]
  simp [render_two_ph_found m p1 p2 k1 k2 v1 v2 h1 h2]

/-- Behaviour of one security-lake table-name transformation, for an
arbitrary brace-free middle chunk `p2` of the template. -/
theorem securityLake_item_spec (p2 : Str)
    (hp2 : ∀ c ∈ p2, c ≠ '\x7b' ∧ c ≠ '\x7d') :
    (∀ vars st, lookupS vars "backend_aws_table_region" = none →
      ∃ msg, applyDash ⟨"table_name",
          ⟨"amazon_security_lake_table_".data ++ ('\x7b' ::
            ("backend_aws_table_region".data ++ ('\x7d' :: (p2 ++ ('\x7b' ::
              ("backend_aws_table_version".data ++ ['\x7d']))))))⟩,
          [("backend_aws_table_version", "2_0")]⟩ vars st =
        (st, some (.keyError msg)) ∧
        hasSub "backend_aws_table_region".data msg.data = true) ∧
    (∀ (r : String) (st : SMap), ∃ v : String,
      formatMap
        ⟨"amazon_security_lake_table_".data ++ ('\x7b' ::
          ("backend_aws_table_region".data ++ ('\x7d' :: (p2 ++ ('\x7b' ::
            ("backend_aws_table_version".data ++ ['\x7d']))))))⟩
        (pyMerge [("backend_aws_table_version", "2_0")]
          [("backend_aws_table_region", r)]) = .ok v ∧
      applyDash ⟨"table_name",
          ⟨"amazon_security_lake_table_".data ++ ('\x7b' ::
            ("backend_aws_table_region".data ++ ('\x7d' :: (p2 ++ ('\x7b' ::
              ("backend_aws_table_version".data ++ ['\x7d']))))))⟩,
          [("backend_aws_table_version", "2_0")]⟩
        [("backend_aws_table_region", r)] st =
        (setKey st "table_name" (dashRepl v), none) ∧
      hasSub "2_0".data v.data = true) := by
  constructor
  · intro vars st hnone
    have hm : lookupS (pyMerge [("backend_aws_table_version", "2_0")] vars)
        "backend_aws_table_region" = none := by
      rw [lookupS_pyMerge_of_not_vars _ _ _ hnone]
      rfl
    have hfmt := formatMap_two_ph_missing "amazon_security_lake_table_".data
      p2 "backend_aws_table_region" "backend_aws_table_version" _
      (by decide) hp2 (by decide) (by decide) hm
    refine ⟨missingMsg "backend_aws_table_region" "table_name"
      (keysOf (pyMerge [("backend_aws_table_version", "2_0")] vars)),
      ?_, hasSub_missingMsg_missing _ _ _⟩
    have happ : applyT ⟨"table_name",
        ⟨"amazon_security_lake_table_".data ++ ('\x7b' ::
          ("backend_aws_table_region".data ++ ('\x7d' :: (p2 ++ ('\x7b' ::
            ("backend_aws_table_version".data ++ ['\x7d']))))))⟩,
        [("backend_aws_table_version", "2_0")]⟩ vars st =
        (st, some (.keyError (missingMsg "backend_aws_table_region"
          "table_name" (keysOf (pyMerge
            [("backend_aws_table_version", "2_0")] vars))))) := by
      simp only [applyT]
      rw [hfmt]
    exact applyDash_of_applyT_error _ _ _ _ _ happ
  · intro r st
    have h1 : lookupS (pyMerge [("backend_aws_table_version", "2_0")]
        [("backend_aws_table_region", r)]) "backend_aws_table_region" =
        some r := rfl
    have h2 : lookupS (pyMerge [("backend_aws_table_version", "2_0")]
        [("backend_aws_table_region", r)]) "backend_aws_table_version" =
        some "2_0" := rfl
    have hfmt := formatMap_two_ph_found "amazon_security_lake_table_".data
      p2 "backend_aws_table_region" "backend_aws_table_version" _ r "2_0"
      (by decide) hp2 (by decide) (by decide) h1 h2
    refine ⟨⟨"amazon_security_lake_table_".data ++
      (r.data ++ (p2 ++ "2_0".data))⟩, hfmt, ?_, ?_⟩
    · have happ : applyT ⟨"table_name",
          ⟨"amazon_security_lake_table_".data ++ ('\x7b' ::
            ("backend_aws_table_region".data ++ ('\x7d' :: (p2 ++ ('\x7b' ::
              ("backend_aws_table_version".data ++ ['\x7d']))))))⟩,
          [("backend_aws_table_version", "2_0")]⟩
          [("backend_aws_table_region", r)] st =
          (setKey st "table_name"
            ⟨"amazon_security_lake_table_".data ++
              (r.data ++ (p2 ++ "2_0".data))⟩, none) := by
        simp only [applyT]
        rw [hfmt]
      exact applyDash_of_applyT_ok _ _ _ _ happ
    · exact hasSub_append_left _ _ _ (hasSub_append_left _ _ _
        (hasSub_append_left _ _ _ (by decide)))

/-! ### Claim about the security-lake table-name pipeline -/

/-- Claim C10: every transformation of the security-lake table-name
pipeline has a template referencing exactly the placeholders
`backend_aws_table_region` then `backend_aws_table_version`, writes the
key `table_name`, and defaults only the version key (to `2_0`); applying
it with options lacking the region key fails with a missing-key error
naming `backend_aws_table_region`, while options supplying only the
region succeed with `2_0` substituted for the version. -/
theorem C10_security_lake (tr : SetStateTr) (htr : tr ∈ securityLakeItems) :
    phKeys tr.template =
      some ["backend_aws_table_region", "backend_aws_table_version"] ∧
    tr.key = "table_name" ∧
    tr.default_values = [("backend_aws_table_version", "2_0")] ∧
    (∀ vars st, lookupS vars "backend_aws_table_region" = none →
      ∃ msg, applyDash tr vars st = (st, some (.keyError msg)) ∧
        hasSub "backend_aws_table_region".data msg.data = true) ∧
    (∀ (r : String) (st : SMap), ∃ v : String,
      formatMap tr.template (pyMerge tr.default_values
        [("backend_aws_table_region", r)]) = .ok v ∧
      applyDash tr [("backend_aws_table_region", r)] st =
        (setKey st "table_name" (dashRepl v), none) ∧
      hasSub "2_0".data v.data = true) := by
  simp only [securityLakeItems, securityLakeSources, List.map_cons,
    List.map_nil, List.mem_cons, List.not_mem_nil, or_false] at htr
  rcases htr with rfl | rfl | rfl | rfl | rfl | rfl | rfl | rfl <;>
    refine ⟨by decide, rfl, rfl, ?_, ?_⟩
  · exact (securityLake_item_spec "_cloud_trail_mgmt_".data (by decide)).1
  · exact (securityLake_item_spec "_cloud_trail_mgmt_".data (by decide)).2
  · exact (securityLake_item_spec "_s3_data_".data (by decide)).1
  · exact (securityLake_item_spec "_s3_data_".data (by decide)).2
  · exact (securityLake_item_spec "_lambda_execution_".data (by decide)).1
  · exact (securityLake_item_spec "_lambda_execution_".data (by decide)).2
  · exact (securityLake_item_spec "_route53_".data (by decide)).1
  · exact (securityLake_item_spec "_route53_".data (by decide)).2
  · exact (securityLake_item_spec "_sh_findings_".data (by decide)).1
  · exact (securityLake_item_spec "_sh_findings_".data (by decide)).2
  · exact (securityLake_item_spec "_vpc_flow_".data (by decide)).1
  · exact (securityLake_item_spec "_vpc_flow_".data (by decide)).2
  · exact (securityLake_item_spec "_waf_".data (by decide)).1
  · exact (securityLake_item_spec "_waf_".data (by decide)).2
  · exact (securityLake_item_spec "_eks_audit_".data (by decide)).1
  · exact (securityLake_item_spec "_eks_audit_".data (by decide)).2

/-- Closed witness for claim C10 on the cloudtrail item: missing region
errors, region-only options succeed. -/
theorem C10_witness :
    phKeys "amazon_security_lake_table_{backend_aws_table_region}_cloud_trail_mgmt_{backend_aws_table_version}" =
      some ["backend_aws_table_region", "backend_aws_table_version"] ∧
    (∃ msg, applyDash ⟨"table_name",
        "amazon_security_lake_table_{backend_aws_table_region}_cloud_trail_mgmt_{backend_aws_table_version}",
        [("backend_aws_table_version", "2_0")]⟩ [] [] =
        ([], some (.keyError msg)) ∧
      hasSub "backend_aws_table_region".data msg.data = true) ∧
    (∃ v : String,
      formatMap "amazon_security_lake_table_{backend_aws_table_region}_cloud_trail_mgmt_{backend_aws_table_version}"
        (pyMerge [("backend_aws_table_version", "2_0")]
          [("backend_aws_table_region", "eu-west-1")]) = .ok v ∧
      applyDash ⟨"table_name",
          "amazon_security_lake_table_{backend_aws_table_region}_cloud_trail_mgmt_{backend_aws_table_version}",
          [("backend_aws_table_version", "2_0")]⟩
        [("backend_aws_table_region", "eu-west-1")] [] =
        (setKey [] "table_name" (dashRepl v), none) ∧
      hasSub "2_0".data v.data = true) :=
  ⟨(C10_security_lake ⟨"table_name",
      "amazon_security_lake_table_{backend_aws_table_region}_cloud_trail_mgmt_{backend_aws_table_version}",
      [("backend_aws_table_version", "2_0")]⟩ (by decide)).1,
    (C10_security_lake ⟨"table_name",
      "amazon_security_lake_table_{backend_aws_table_region}_cloud_trail_mgmt_{backend_aws_table_version}",
      [("backend_aws_table_version", "2_0")]⟩ (by decide)).2.2.2.1 [] [] rfl,
    (C10_security_lake ⟨"table_name",
      "amazon_security_lake_table_{backend_aws_table_region}_cloud_trail_mgmt_{backend_aws_table_version}",
      [("backend_aws_table_version", "2_0")]⟩ (by decide)).2.2.2.2
      "eu-west-1" []⟩

/-! ### Claims about the modifier resolver -/

instance (α β : Type) [DecidableEq α] [DecidableEq β] :
    DecidableEq (Except α β) := fun a b =>
  match a, b with
  | .ok x, .ok y =>
    if h : x = y then isTrue (by rw [h]) else isFalse (by simp [h])
  | .error x, .error y =>
    if h : x = y then isTrue (by rw [h]) else isFalse (by simp [h])
  | .ok _, .error _ => isFalse (by simp)
  | .error _, .ok _ => isFalse (by simp)

/-- Counterexample to claim C2 as stated: on the stack
`[cased, fieldref]` the resolver fails with a `NotImplementedError`
carrying the documented message (the class the repository's test
asserts), not a `NotSupportedError`; and when `re` is also present the
regex-exclusivity `SigmaValueError` wins instead. -/
theorem C2_counterexample :
    resolveModifiers [AMod.cased, AMod.fieldref] =
      .error (.notImplementedError
        "cased is not support with fieldref for this backend at present") ∧
    resolveModifiers [AMod.cased, AMod.fieldref] ≠
      .error (.notSupportedError
        "cased is not support with fieldref for this backend at present") ∧
    resolveModifiers [AMod.re, AMod.cased, AMod.fieldref] =
      .error (.sigmaValueError
        "Regular expression modifier only applicable to unmodified values") :=
  ⟨by decide, by decide, by decide⟩

/-- Claim C2 (amended): for every modifier stack containing both
`fieldref` and `cased` but not `re`, resolution fails with a
`NotImplementedError` whose message is
"cased is not support with fieldref for this backend at present", and no
comparison shape is produced. -/
theorem C2_amended (mods : List AMod)
    (h1 : AMod.fieldref ∈ mods) (h2 : AMod.cased ∈ mods)
    (h3 : AMod.re ∉ mods) :
    resolveModifiers mods = .error (.notImplementedError
      "cased is not support with fieldref for this backend at present") := by
  unfold resolveModifiers
  rw [if_neg h3, if_pos h1, if_pos h2]

/-- Closed witness for the amended claim C2 on the repository test's
stack `cased|fieldref`. -/
theorem C2_witness :
    AMod.fieldref ∈ [AMod.cased, AMod.fieldref] ∧
    AMod.cased ∈ [AMod.cased, AMod.fieldref] ∧
    AMod.re ∉ [AMod.cased, AMod.fieldref] ∧
    resolveModifiers [AMod.cased, AMod.fieldref] =
      .error (.notImplementedError
        "cased is not support with fieldref for this backend at present") :=
  ⟨by decide, by decide, by decide,
    C2_amended _ (by decide) (by decide) (by decide)⟩

/-- Claim C9: applying the template-substitution transformation twice
with the same template, defaults and options leaves the run-scoped state
(and in particular the value under the given key) exactly as applying it
once, for both the plain variant and the dash-to-underscore variant; the
error outcome is also unchanged. -/
theorem C9_idempotent (tr : SetStateTr) (vars st : SMap) :
    applyT tr vars (applyT tr vars st).1 = applyT tr vars st ∧
    applyDash tr vars (applyDash tr vars st).1 = applyDash tr vars st := by
  cases hf : formatMap tr.template (pyMerge tr.default_values vars) with
  | error e =>
    cases e with
    | missingKey k =>
      exact ⟨by simp [applyT, hf], by simp [applyDash, applyT, hf]⟩
    | valueError =>
      exact ⟨by simp [applyT, hf], by simp [applyDash, applyT, hf]⟩
  | ok v =>
    constructor
    · simp [applyT, hf, setKey_setKey]
    · simp [applyDash, applyT, hf, lookupS_setKey_self, setKey_setKey]

/-- Claim C8: when substitution succeeds with value `v`, the
dash-to-underscore variant leaves under the state key exactly `v` with
every `-` replaced by `_` and no other change: the replacement is the
character map sending `-` to `_`, removes every `-`, turns each `-` into
an additional `_`, leaves the count of every other character and the
length unchanged. -/
theorem C8_dash_to_underscore (tr : SetStateTr) (vars st : SMap)
    (v : String)
    (h : formatMap tr.template (pyMerge tr.default_values vars) = .ok v) :
    applyDash tr vars st = (setKey st tr.key (dashRepl v), none) ∧
    lookupS (applyDash tr vars st).1 tr.key = some (dashRepl v) ∧
    (dashRepl v).data = v.data.map (fun c => if c = '-' then '_' else c) ∧
    (dashRepl v).data.count '-' = 0 ∧
    (dashRepl v).data.count '_' = v.data.count '_' + v.data.count '-' ∧
    (∀ c : Char, c ≠ '-' → c ≠ '_' →
      (dashRepl v).data.count c = v.data.count c) ∧
    (dashRepl v).data.length = v.data.length := by
  have h1 : applyDash tr vars st = (setKey st tr.key (dashRepl v), none) := by
    simp [applyDash, applyT, h, lookupS_setKey_self, setKey_setKey]
  refine ⟨h1, by rw [h1]; exact lookupS_setKey_self _ _ _, rfl, ?_, ?_, ?_, ?_⟩
  · exact count_map_zero _ _ (fun x => by by_cases hx : x = '-' <;> simp [hx]) _
  · exact count_map_two _ _ '-' (by decide)
      (fun x => by by_cases hx : x = '-' <;> simp [hx]) _
  · intro c hc1 hc2
    refine count_map_iff _ _ (fun x => ?_) _
    by_cases hx : x = '-'
    · subst hx
      simp only [if_pos rfl]
      exact iff_of_false (fun he => hc2 he.symm) (fun he => hc1 he.symm)
    · simp [hx]
  · simp [dashRepl]

/-- Closed witness for claim C8 at a concrete transformation. -/
theorem C8_witness :
    applyDash ⟨"t", "{a}", []⟩ [("a", "x-y")] [] =
      (setKey [] "t" (dashRepl "x-y"), none) ∧
    dashRepl "x-y" = "x_y" :=
  ⟨(C8_dash_to_underscore ⟨"t", "{a}", []⟩ [("a", "x-y")] [] "x-y" rfl).1,
    by decide⟩

end Athena
